import Mathlib

/-!
Shallow embedding of `src/todo.py`, a console to-do list manager.

The program's in-memory task list is a Python list of values obtained from
`json.loads` (normally dicts `{"task": str, "completed": bool, "created": str}`,
but `load_tasks` installs any decoded JSON list unvalidated).  We therefore
model tasks as dynamic JSON values, and the store state as the task list
together with the backing file's content.  The file content is represented by
its observable parse: the outcome of `json.loads` on the stripped content plus
the content's newline-split lines (used only by the legacy plain-text path).
`json.dump` followed by `json.loads` is the identity on JSON-representable
values, so `save_tasks` is modelled as writing the parsed form directly.
Filesystem success or failure of a write is an environment fact, passed to each
operation as a `saveOk : Bool` parameter.  Uncaught Python exceptions
(KeyError/TypeError on records lacking the expected fields, outside any
`try/except`) are modelled as `Option.none` results; exceptions that the source
catches locally are modelled by the value the handler returns.
-/

namespace Todo

/-- JSON values, as produced by Python's `json.loads`: objects are key/value
lists in insertion order (Python dicts preserve insertion order and have
unique keys).  Numbers are modelled as integers; no claim depends on
fractional literals in the file. -/
inductive Json where
  | null
  | bool (b : Bool)
  | num (n : Int)
  | str (s : String)
  | arr (elems : List Json)
  | obj (fields : List (String × Json))

/-- Python truthiness (`bool(v)`) of a JSON value: `None`, `False`, `0`, `""`,
`[]`, `{}` are falsy, everything else truthy. -/
def Json.truthy : Json → Bool
  | .null => false
  | .bool b => b
  | .num n => n != 0
  | .str s => s != ""
  | .arr elems => !elems.isEmpty
  | .obj fields => !fields.isEmpty

/-- Python dict read `v[k]`: `some` value on an object that has the key,
`none` for a missing key (KeyError) or a non-dict value (TypeError). -/
def Json.lookupKey : Json → String → Option Json
  | .obj fields, k => fields.lookup k
  | _, _ => none

/-- Replace the value of key `k` in an association list, or append the binding
at the end when the key is absent (Python dict assignment appends new keys in
insertion order). -/
def setField : List (String × Json) → String → Json → List (String × Json)
  | [], k, v => [(k, v)]
  | (k', v') :: rest, k, v =>
    if k' = k then (k, v) :: rest else (k', v') :: setField rest k v

/-- Python dict write `v[k] = x`: succeeds on an object, fails (TypeError) on
any other value. -/
def Json.setKey : Json → String → Json → Option Json
  | .obj fields, k, v => some (.obj (setField fields k v))
  | _, _, _ => none

/-- Python's `str.strip()`: remove leading and trailing whitespace.  (Defined
by structural recursion over the character list so that concrete instances
reduce; `String.trim` is the same operation but is defined by well-founded
recursion on byte positions, which the kernel cannot evaluate.) -/
def pyStrip (s : String) : String :=
  .mk (((s.toList.dropWhile Char.isWhitespace).reverse.dropWhile Char.isWhitespace).reverse)

/-- Python's `str.lower()`: lowercase every character. -/
def pyLower (s : String) : String :=
  .mk (s.toList.map Char.toLower)

/-- The `isinstance(data, list)` test of `load_tasks`: `true` exactly on JSON
arrays, whatever their elements are. -/
def Json.isArr : Json → Bool
  | .arr _ => true
  | _ => false

/-- The task-record dict built by the source:
`{"task": desc, "completed": completed, "created": created}`. -/
def mkTask (desc : String) (completed : Bool) (created : String) : Json :=
  .obj [("task", .str desc), ("completed", .bool completed), ("created", .str created)]

/-- The read `task["completed"]` as a truthiness test, `none` when the read raises. -/
def completedFlag (t : Json) : Option Bool :=
  (t.lookupKey "completed").map Json.truthy

/-- The completed test used in filters, meaningful when `completedFlag` is
`some`. -/
def taskCompleted (t : Json) : Bool :=
  (completedFlag t).getD false

/-- A record on which every field access the mutating operations perform
succeeds: `t["task"]` and `t["completed"]` are both defined. -/
def hasTaskFields (t : Json) : Bool :=
  (t.lookupKey "task").isSome && (t.lookupKey "completed").isSome

/-- A valid task record in the sense of the data model: exactly the keys
`task`, `completed`, `created` in the order the program writes them, with a
trimmed non-empty description string, a boolean flag, and a string timestamp. -/
def isValidRecord : Json → Bool
  | .obj [("task", .str d), ("completed", .bool _), ("created", .str _)] =>
      pyStrip d == d && d != ""
  | _ => false

/-- What `load_tasks` observes of the backing file: the file may be missing,
its stripped content may be empty, or the stripped content is summarised by
its `json.loads` outcome (`none` on `JSONDecodeError`) together with its
newline-split lines (consulted only by the legacy plain-text path). -/
inductive FileRead where
  | missing
  | emptyContent
  | present (parsed : Option Json) (lines : List String)

/-- The legacy plain-text parse (`load_tasks` lines 31-32 and 35-36): one
record per line that is non-blank after stripping, with the stripped line as
description, `completed=False`, `created=""`. -/
def legacyLines (lines : List String) : List Json :=
  (lines.filter (fun l => pyStrip l != "")).map (fun l => mkTask (pyStrip l) false "")

/-- Embedding of `TodoApp.load_tasks`: missing file or empty content give the empty list;
otherwise try JSON first and keep the decoded value whenever it is a list
(`isinstance(data, list)`); a decoded non-list or a `JSONDecodeError` falls
back to the plain-text line parse.  (I/O errors, also caught and yielding an
empty list, enter the model as `missing`.) -/
def load_tasks : FileRead → List Json
  | .missing => []
  | .emptyContent => []
  | .present parsed lines =>
    match parsed with
    | some (.arr elems) => elems
    | some _ => legacyLines lines
    | none => legacyLines lines

/-- The store state: the in-memory task list plus the backing file content. -/
structure AppState where
  tasks : List Json
  file : FileRead

/-- Embedding of `TodoApp.save_tasks`: on filesystem success it overwrites the file with
the JSON dump of the task list and returns `True`; on failure it reports the
error and returns `False`, leaving the file as it was.  The dump parses back
to exactly the dumped list, so the written content is `present (some (.arr
tasks))`; its concrete text lines are never consulted by `load_tasks` when the
parse is a list, so they are recorded as `[]`. -/
def save_tasks (st : AppState) (saveOk : Bool) : AppState × Bool :=
  if saveOk then ({ st with file := .present (some (.arr st.tasks)) [] }, true)
  else (st, false)

/-- Embedding of `TodoApp.add_task`: reject a description that is empty after stripping;
otherwise append the new record (with the current timestamp `now`) and then
save, returning the save outcome.  The appended record is kept even when the
save fails. -/
def add_task (st : AppState) (saveOk : Bool) (desc : String) (now : String) :
    AppState × Bool :=
  if pyStrip desc = "" then (st, false)
  else
    save_tasks { st with tasks := st.tasks ++ [mkTask (pyStrip desc) false now] } saveOk

/-- Embedding of `TodoApp.remove_task`: for a 1-based index in `[1, len]`, pop the record,
save, and report the removed description (a record without a `task` key makes
that report raise; the `except` turns this into `False`, after the pop and
save already happened).  Any other index is rejected with no mutation. -/
def remove_task (st : AppState) (saveOk : Bool) (i : Int) : AppState × Bool :=
  if 1 ≤ i ∧ i ≤ (st.tasks.length : Int) then
    let removed := st.tasks.getD (i - 1).toNat .null
    let saved := save_tasks { st with tasks := st.tasks.eraseIdx (i - 1).toNat } saveOk
    if saved.2 then (saved.1, (removed.lookupKey "task").isSome) else (saved.1, false)
  else (st, false)

/-- Embedding of `TodoApp.mark_complete`: for an in-range index, set `completed` to `True`
(a non-dict element makes the assignment raise; the `except` turns this into
`False` with no mutation), save, and report the description (a missing `task`
key makes the report raise after the save). -/
def mark_complete (st : AppState) (saveOk : Bool) (i : Int) : AppState × Bool :=
  if 1 ≤ i ∧ i ≤ (st.tasks.length : Int) then
    match (st.tasks.getD (i - 1).toNat .null).setKey "completed" (.bool true) with
    | none => (st, false)
    | some t' =>
      let saved := save_tasks { st with tasks := st.tasks.set (i - 1).toNat t' } saveOk
      if saved.2 then (saved.1, (t'.lookupKey "task").isSome) else (saved.1, false)
  else (st, false)

/-- Embedding of `TodoApp.mark_incomplete`: same as `mark_complete` with `False`. -/
def mark_incomplete (st : AppState) (saveOk : Bool) (i : Int) : AppState × Bool :=
  if 1 ≤ i ∧ i ≤ (st.tasks.length : Int) then
    match (st.tasks.getD (i - 1).toNat .null).setKey "completed" (.bool false) with
    | none => (st, false)
    | some t' =>
      let saved := save_tasks { st with tasks := st.tasks.set (i - 1).toNat t' } saveOk
      if saved.2 then (saved.1, (t'.lookupKey "task").isSome) else (saved.1, false)
  else (st, false)

/-- Embedding of `TodoApp.edit_task`: for an in-range index and a replacement that is
non-empty after stripping, read the old description (a missing `task` key
raises here, caught with no mutation), overwrite it with the stripped
replacement, and save. -/
def edit_task (st : AppState) (saveOk : Bool) (i : Int) (newDesc : String) :
    AppState × Bool :=
  if 1 ≤ i ∧ i ≤ (st.tasks.length : Int) then
    if pyStrip newDesc = "" then (st, false)
    else
      match (st.tasks.getD (i - 1).toNat .null).lookupKey "task" with
      | none => (st, false)
      | some _ =>
        match (st.tasks.getD (i - 1).toNat .null).setKey "task" (.str (pyStrip newDesc)) with
        | none => (st, false)
        | some t' => save_tasks { st with tasks := st.tasks.set (i - 1).toNat t' } saveOk
  else (st, false)

/-- The confirmation test used by both confirmation prompts
(`input(...).strip().lower() in ['y', 'yes']`). -/
def confirmAffirmative (s : String) : Bool :=
  pyLower (pyStrip s) == "y" || pyLower (pyStrip s) == "yes"

/-- Embedding of `TodoApp.clear_completed`: the completed records are listed first (each
`task["completed"]` read can raise, uncaught: `none`); if there are none the
operation reports and returns `False` without prompting.  Otherwise the
completed descriptions are printed (each `task["task"]` read can raise,
uncaught), the method itself prompts for confirmation, and only an affirmative
answer filters the completed records out and saves; any other answer cancels
with no mutation. -/
def clear_completed (st : AppState) (saveOk : Bool) (confirmInput : String) :
    Option (AppState × Bool) :=
  if !(st.tasks.all fun t => (completedFlag t).isSome) then none
  else
    let completedTasks := st.tasks.filter taskCompleted
    if completedTasks.isEmpty then some (st, false)
    else if !(completedTasks.all fun t => (t.lookupKey "task").isSome) then none
    else if confirmAffirmative confirmInput then
      some (save_tasks { st with tasks := st.tasks.filter (fun t => !taskCompleted t) } saveOk)
    else some (st, false)

/-- What `get_task_stats` reports: either the distinct no-tasks message (early
return for an empty list) or the four statistics.  The completion rate is the
exact value of `(completed / total) * 100`; the `:.1f` display formatting is
not modelled. -/
inductive StatsReport where
  | noTasks
  | stats (total completed pending : Nat) (completionRate : ℚ)
deriving DecidableEq

/-- Embedding of `TodoApp.get_task_stats`: an empty list prints the no-tasks message and
returns early; otherwise the counts are computed (each `task["completed"]`
read can raise, uncaught: `none`) together with the completion rate, which is
guarded by `if total > 0 else 0` in the source. -/
def get_task_stats (st : AppState) : Option StatsReport :=
  if st.tasks.isEmpty then some .noTasks
  else if !(st.tasks.all fun t => (completedFlag t).isSome) then none
  else
    let total := st.tasks.length
    let completed := (st.tasks.filter taskCompleted).length
    let pending := total - completed
    let rate : ℚ := if total > 0 then ((completed : ℚ) / (total : ℚ)) * 100 else 0
    some (.stats total completed pending rate)

/-- The remove branch of `main` (choice 7): after the task number is chosen,
the caller layer prompts for confirmation and invokes `remove_task` only on an
affirmative answer; any other answer cancels with no call into the store. -/
def removeConfirmStep (st : AppState) (saveOk : Bool) (taskNum : Int)
    (confirmInput : String) : AppState :=
  if confirmAffirmative confirmInput then (remove_task st saveOk taskNum).1
  else st

/-! ## Helper lemmas -/

theorem completedFlag_isSome_of_hasTaskFields {t : Json} (h : hasTaskFields t = true) :
    (completedFlag t).isSome = true := by
  simp only [hasTaskFields, Bool.and_eq_true] at h
  obtain ⟨v, hv⟩ := Option.isSome_iff_exists.mp h.2
  simp [completedFlag, hv]

theorem all_completedFlag_isSome {l : List Json} (h : l.all hasTaskFields = true) :
    (l.all fun t => (completedFlag t).isSome) = true := by
  rw [List.all_eq_true] at h ⊢
  exact fun t ht => completedFlag_isSome_of_hasTaskFields (h t ht)

theorem all_task_isSome_of_filter {l : List Json} (h : l.all hasTaskFields = true) :
    ((l.filter taskCompleted).all fun t => (t.lookupKey "task").isSome) = true := by
  rw [List.all_eq_true] at h ⊢
  intro t ht
  have ht' := h t (List.mem_of_mem_filter ht)
  simp only [hasTaskFields, Bool.and_eq_true] at ht'
  exact ht'.1

theorem getElem?_eraseIdx (l : List α) (n j : Nat) :
    (l.eraseIdx n)[j]? = if j < n then l[j]? else l[j + 1]? := by
  induction l generalizing n j with
  | nil => simp
  | cons a l ih =>
    cases n with
    | zero => simp
    | succ n =>
      cases j with
      | zero => simp
      | succ j =>
        simp [List.eraseIdx_cons_succ, ih, Nat.succ_lt_succ_iff]

/-! ## Claim theorems -/

/-- C1: saving a list of valid task records and then loading the saved file
yields the same list (same descriptions, completed flags, and creation
timestamps): load after a successful save is the identity. -/
theorem save_load_round_trip (L : List Json) (f : FileRead)
    (_valid : L.all isValidRecord = true) :
    load_tasks ((save_tasks ⟨L, f⟩ true).1).file = L := rfl

theorem save_load_round_trip_witness :
    load_tasks ((save_tasks ⟨[mkTask "buy milk" false "2024-01-01 00:00:00",
        mkTask "walk dog" true "2024-01-02 12:30:00"], .missing⟩ true).1).file
      = [mkTask "buy milk" false "2024-01-01 00:00:00",
         mkTask "walk dog" true "2024-01-02 12:30:00"] :=
  save_load_round_trip
    [mkTask "buy milk" false "2024-01-01 00:00:00",
     mkTask "walk dog" true "2024-01-02 12:30:00"] .missing (by decide)

/-- C2 (counterexample): file content decoding to the JSON list `[1, 2, 3]`
is a value that is not a sequence of records, yet `load_tasks` installs it
as-is instead of taking the legacy line-based fallback (which would give one
record with description `[1, 2, 3]`). -/
theorem load_keeps_nonrecord_list :
    load_tasks (.present (some (.arr [.num 1, .num 2, .num 3])) ["[1, 2, 3]"])
      = [Json.num 1, .num 2, .num 3]
  ∧ legacyLines ["[1, 2, 3]"] = [mkTask "[1, 2, 3]" false ""]
  ∧ [Json.num 1, .num 2, .num 3] ≠ [mkTask "[1, 2, 3]" false ""] := by
  refine ⟨rfl, rfl, ?_⟩
  intro h
  injection h with h1 _
  exact Json.noConfusion h1

/-- C2 (amended): load uses a two-tier parse: a structurally failed decode
falls back to the legacy line parse, and so does a decoded value that is not a
list; but any decoded list — records or not — is installed as-is. -/
theorem load_two_tier (lines : List String) :
    load_tasks (.present none lines) = legacyLines lines
  ∧ (∀ v : Json, v.isArr = false → load_tasks (.present (some v) lines) = legacyLines lines)
  ∧ (∀ elems : List Json, load_tasks (.present (some (.arr elems)) lines) = elems) := by
  refine ⟨rfl, ?_, fun _ => rfl⟩
  intro v hv
  cases v <;> first | rfl | simp [Json.isArr] at hv

theorem load_two_tier_witness :
    load_tasks (.present (some (.obj [])) ["keep going"]) = legacyLines ["keep going"] :=
  (load_two_tier ["keep going"]).2.1 (.obj []) rfl

/-- C4: plain-text content (a failed structured decode) loads as one record
per line that is non-blank after stripping, with `completed=false` and
`created=""`; in particular `"buy milk\nwalk dog"` loads as exactly those two
records; and a successful save always rewrites the file in the structured
(JSON array) format. -/
theorem legacy_text_load (lines : List String) (st : AppState) :
    load_tasks (.present none lines)
      = (lines.filter (fun l => pyStrip l != "")).map (fun l => mkTask (pyStrip l) false "")
  ∧ load_tasks (.present none ["buy milk", "walk dog"])
      = [mkTask "buy milk" false "", mkTask "walk dog" false ""]
  ∧ (save_tasks st true).1.file = .present (some (.arr st.tasks)) [] :=
  ⟨rfl, by rfl, rfl⟩

/-- C5: an index outside `[1, N]` makes `remove_task`, `mark_complete` and
`mark_incomplete` report failure and leave the whole state — the in-memory
list and the backing file — unchanged, for any save outcome. -/
theorem out_of_range_rejected (st : AppState) (saveOk : Bool) (i : Int)
    (h : ¬(1 ≤ i ∧ i ≤ (st.tasks.length : Int))) :
    remove_task st saveOk i = (st, false)
  ∧ mark_complete st saveOk i = (st, false)
  ∧ mark_incomplete st saveOk i = (st, false) := by
  refine ⟨?_, ?_, ?_⟩ <;> simp [remove_task, mark_complete, mark_incomplete, h]

theorem out_of_range_rejected_witness :
    remove_task ⟨[mkTask "a" false ""], .missing⟩ true 0
      = (⟨[mkTask "a" false ""], .missing⟩, false)
  ∧ mark_complete ⟨[mkTask "a" false ""], .missing⟩ true 0
      = (⟨[mkTask "a" false ""], .missing⟩, false)
  ∧ mark_incomplete ⟨[mkTask "a" false ""], .missing⟩ true 0
      = (⟨[mkTask "a" false ""], .missing⟩, false) :=
  out_of_range_rejected ⟨[mkTask "a" false ""], .missing⟩ true 0 (by decide)

/-- C6: a description that is empty after stripping makes `add_task` fail
with no change to the list or the file, and makes `edit_task` fail likewise
even at a valid index. -/
theorem empty_description_rejected (st : AppState) (saveOk : Bool)
    (d now : String) (i : Int) (hd : pyStrip d = "")
    (hi : 1 ≤ i ∧ i ≤ (st.tasks.length : Int)) :
    add_task st saveOk d now = (st, false)
  ∧ edit_task st saveOk i d = (st, false) := by
  constructor
  · simp [add_task, hd]
  · simp [edit_task, hi, hd]

theorem empty_description_rejected_witness :
    add_task ⟨[mkTask "a" false ""], .missing⟩ true "   " "2024-01-01 00:00:00"
      = (⟨[mkTask "a" false ""], .missing⟩, false)
  ∧ edit_task ⟨[mkTask "a" false ""], .missing⟩ true 1 "   "
      = (⟨[mkTask "a" false ""], .missing⟩, false) :=
  empty_description_rejected ⟨[mkTask "a" false ""], .missing⟩ true "   "
    "2024-01-01 00:00:00" 1 (by decide) (by decide)

/-- C10: when the save fails during `add_task` with a valid description, the
operation returns failure but the new record stays appended to the in-memory
list (the append happens before persistence and is not rolled back), and the
file is left as it was. -/
theorem add_task_save_failure (st : AppState) (d now : String)
    (hd : pyStrip d ≠ "") :
    add_task st false d now
      = ({ st with tasks := st.tasks ++ [mkTask (pyStrip d) false now] }, false) := by
  simp [add_task, hd, save_tasks]

theorem add_task_save_failure_witness :
    add_task ⟨[], .missing⟩ false "write report" "2024-03-04 05:06:07"
      = (⟨[mkTask "write report" false "2024-03-04 05:06:07"], .missing⟩, false) :=
  add_task_save_failure ⟨[], .missing⟩ "write report" "2024-03-04 05:06:07" (by decide)

/-- C3 (counterexample): the store's `clear_completed` consumes the
confirmation answer itself — its outcome on the same state differs between
the answers `"y"` and `"n"` — so the confirmation is not obtained by the
caller layer before the store operation is invoked. -/
theorem clear_completed_prompts_in_store :
    (clear_completed ⟨[mkTask "a" true ""], .missing⟩ true "y").map
        (fun p => p.1.tasks.length) = some 0
  ∧ (clear_completed ⟨[mkTask "a" true ""], .missing⟩ true "n").map
        (fun p => p.1.tasks.length) = some 1 := ⟨rfl, rfl⟩

/-- C3 (amended): an input is affirmative exactly when it equals `y` or `yes`
after stripping and lowercasing; every other input, including empty input,
cancels Remove (in the caller layer) and ClearCompleted with no mutation to
the list or the file — but the ClearCompleted confirmation is prompted for
inside the store operation itself, not by the caller layer. -/
theorem confirmation_policy (s : String) (st : AppState) (saveOk : Bool) (k : Int)
    (hwf : st.tasks.all hasTaskFields = true) :
    (confirmAffirmative s = true ↔
      (pyLower (pyStrip s) = "y" ∨ pyLower (pyStrip s) = "yes"))
  ∧ (confirmAffirmative s = false →
      removeConfirmStep st saveOk k s = st
      ∧ clear_completed st saveOk s = some (st, false))
  ∧ (confirmAffirmative s = true →
      removeConfirmStep st saveOk k s = (remove_task st saveOk k).1) := by
  refine ⟨by simp [confirmAffirmative], ?_, ?_⟩
  · intro hna
    have hall := all_completedFlag_isSome hwf
    have htask := all_task_isSome_of_filter hwf
    refine ⟨by simp [removeConfirmStep, hna], ?_⟩
    cases hfe : (st.tasks.filter taskCompleted).isEmpty with
    | true => simp [clear_completed, hall, hfe]
    | false => simp [clear_completed, hall, hfe, htask, hna]
  · intro ha
    simp [removeConfirmStep, ha]

theorem confirmation_policy_witness :
    removeConfirmStep ⟨[mkTask "a" true ""], .missing⟩ true 1 "no thanks"
      = ⟨[mkTask "a" true ""], .missing⟩
  ∧ clear_completed ⟨[mkTask "a" true ""], .missing⟩ true "no thanks"
      = some (⟨[mkTask "a" true ""], .missing⟩, false) :=
  ((confirmation_policy "no thanks" ⟨[mkTask "a" true ""], .missing⟩ true 1
    (by decide)).2.1 (by decide))

/-- C7: removing a valid 1-based position `k` deletes exactly that record:
the length drops by one, positions before `k` are unchanged, and the records
formerly at positions `k+1..N` now occupy positions `k..N-1` in the same
relative order. -/
theorem remove_task_shifts (st : AppState) (saveOk : Bool) (k : Nat)
    (hk : 1 ≤ k ∧ k ≤ st.tasks.length) :
    ((remove_task st saveOk (k : Int)).1.tasks.length = st.tasks.length - 1)
  ∧ (∀ j : Nat, j + 1 < k →
      (remove_task st saveOk (k : Int)).1.tasks[j]? = st.tasks[j]?)
  ∧ (∀ j : Nat, k ≤ j + 1 →
      (remove_task st saveOk (k : Int)).1.tasks[j]? = st.tasks[j + 1]?) := by
  have hcond : 1 ≤ (k : Int) ∧ (k : Int) ≤ (st.tasks.length : Int) :=
    ⟨by exact_mod_cast hk.1, by exact_mod_cast hk.2⟩
  have hnat : ((k : Int) - 1).toNat = k - 1 := by omega
  have htasks : (remove_task st saveOk (k : Int)).1.tasks = st.tasks.eraseIdx (k - 1) := by
    cases saveOk <;> simp [remove_task, hcond, save_tasks, hnat]
  refine ⟨?_, ?_, ?_⟩
  · rw [htasks, List.length_eraseIdx_of_lt (by omega)]
  · intro j hj
    rw [htasks, getElem?_eraseIdx, if_pos (by omega)]
  · intro j hj
    rw [htasks, getElem?_eraseIdx, if_neg (by omega)]

theorem remove_task_shifts_witness :
    ((remove_task ⟨[mkTask "a" false "", mkTask "b" false "", mkTask "c" false ""],
        .missing⟩ true 2).1.tasks.length = 2)
  ∧ ((remove_task ⟨[mkTask "a" false "", mkTask "b" false "", mkTask "c" false ""],
        .missing⟩ true 2).1.tasks[0]? = some (mkTask "a" false ""))
  ∧ ((remove_task ⟨[mkTask "a" false "", mkTask "b" false "", mkTask "c" false ""],
        .missing⟩ true 2).1.tasks[1]? = some (mkTask "c" false "")) := by
  have h := remove_task_shifts
    ⟨[mkTask "a" false "", mkTask "b" false "", mkTask "c" false ""], .missing⟩
    true 2 ⟨by decide, by decide⟩
  exact ⟨h.1, (h.2.1 0 (by decide)).trans rfl, (h.2.2 1 (by decide)).trans rfl⟩

/-- C8: once confirmed, `clear_completed` removes exactly the records with a
truthy completed flag, keeping the rest in relative order (the remainder is a
sublist of the original); with no completed record it is a reported no-op
that never mutates, so two consecutive calls on such a list both leave it
unchanged. -/
theorem clear_completed_spec (st : AppState) (saveOk : Bool) (s : String)
    (hwf : st.tasks.all hasTaskFields = true) :
    (st.tasks.filter taskCompleted ≠ [] → confirmAffirmative s = true →
      clear_completed st saveOk s
        = some (save_tasks
            { st with tasks := st.tasks.filter (fun t => !taskCompleted t) } saveOk))
  ∧ (st.tasks.filter (fun t => !taskCompleted t)).Sublist st.tasks
  ∧ (st.tasks.filter taskCompleted = [] →
      clear_completed st saveOk s = some (st, false)
      ∧ (clear_completed st saveOk s).bind (fun p => clear_completed p.1 saveOk s)
          = some (st, false)) := by
  have hall := all_completedFlag_isSome hwf
  have htask := all_task_isSome_of_filter hwf
  refine ⟨?_, List.filter_sublist _, ?_⟩
  · intro hne ha
    have hfe : (st.tasks.filter taskCompleted).isEmpty = false := by
      simp [List.isEmpty_iff, hne]
    simp [clear_completed, hall, hfe, htask, ha]
  · intro hemp
    have hfe : (st.tasks.filter taskCompleted).isEmpty = true := by
      simp [List.isEmpty_iff, hemp]
    have h1 : clear_completed st saveOk s = some (st, false) := by
      simp [clear_completed, hall, hfe]
    refine ⟨h1, ?_⟩
    rw [h1]
    exact h1

theorem clear_completed_spec_witness :
    clear_completed ⟨[mkTask "a" true "2024-01-01 00:00:00",
        mkTask "b" false "2024-01-02 00:00:00"], .missing⟩ true "yes"
      = some (save_tasks ⟨[mkTask "b" false "2024-01-02 00:00:00"],
          FileRead.missing⟩ true) := by
  have h := (clear_completed_spec ⟨[mkTask "a" true "2024-01-01 00:00:00",
      mkTask "b" false "2024-01-02 00:00:00"], .missing⟩ true "yes" (by decide)).1
    (by intro hc; exact absurd (congrArg List.length hc) (by decide)) (by decide)
  exact h.trans rfl

/-- C9 (counterexample): with zero tasks, `get_task_stats` returns early with
the distinct no-tasks report; it does not report a statistics record with
completion rate `0`. -/
theorem stats_empty_reports_no_stats :
    get_task_stats ⟨[], .missing⟩ = some .noTasks
  ∧ StatsReport.noTasks ≠ .stats 0 0 0 0 := ⟨rfl, by decide⟩

/-- C9 (amended): `get_task_stats` is a pure read, and for a non-empty list
with `C` completed records out of `T` it reports `total = T`,
`completed = C`, `pending = T - C`, and completion rate `100·C/T` (exact
value; display rounding to one decimal is presentation only); for `T = 0` it
reports the no-tasks message and no statistics, so no division occurs. -/
theorem stats_correct (st : AppState) (hwf : st.tasks.all hasTaskFields = true) :
    (st.tasks ≠ [] →
      get_task_stats st
        = some (.stats st.tasks.length (st.tasks.filter taskCompleted).length
            (st.tasks.length - (st.tasks.filter taskCompleted).length)
            (100 * ((st.tasks.filter taskCompleted).length : ℚ)
              / (st.tasks.length : ℚ))))
  ∧ (st.tasks = [] → get_task_stats st = some .noTasks) := by
  constructor
  · intro hne
    have hall := all_completedFlag_isSome hwf
    have hie : st.tasks.isEmpty = false := by simp [List.isEmpty_iff, hne]
    have hpos : 0 < st.tasks.length := List.length_pos.mpr hne
    simp [get_task_stats, hie, hall, hpos]
    ring
  · intro hemp
    simp [get_task_stats, hemp]

theorem stats_correct_witness :
    get_task_stats ⟨[mkTask "a" true "2024-01-01 00:00:00",
        mkTask "b" false "2024-01-02 00:00:00"], .missing⟩
      = some (.stats 2 1 1 50) := by
  have h := (stats_correct ⟨[mkTask "a" true "2024-01-01 00:00:00",
      mkTask "b" false "2024-01-02 00:00:00"], .missing⟩ (by decide)).1 (by simp)
  rw [h]
  have hfilter : (List.filter taskCompleted [mkTask "a" true "2024-01-01 00:00:00",
      mkTask "b" false "2024-01-02 00:00:00"]).length = 1 := by decide
  norm_num [hfilter]

end Todo
